import Mathlib

/-!
Verification of the path-safety, file-operation and confirmation layer of the
mcp-toolkit filesystem server.

The TypeScript sources are shallowly embedded:
* pure string/path manipulation (expandHome, normalizePath,
  isPathWithinAllowedDirectories, sensitivity classification, mode parsing)
  is translated function-by-function, with Node's posix `path.resolve`,
  `path.normalize`, `path.dirname`, `path.basename`, `path.join` reproduced
  for the posix platform branch (the non-win32 branches of the source);
* the filesystem is a finite association list from canonical absolute path to
  node (file with content and mode, directory with mode, or symbolic link);
  symbolic links are resolved one level (chains count as unresolvable);
* async functions that throw `FileSystemError` become functions into
  `Except FileSystemErrorType _`; operations that mutate the filesystem
  additionally return the world, and on error return the world as mutated so
  far (exceptions in the source do not roll back completed I/O);
* the elicitation round trip of the confirmation guard is a value describing
  the channel: capability missing, call threw, or a structured response.
-/

/-- `s` starts with `p` (JS `String.prototype.startsWith`). -/
def strStartsWith (s p : String) : Bool :=
  p.toList.isPrefixOf s.toList

/-- `s` ends with `p` (JS `String.prototype.endsWith`). -/
def strEndsWith (s p : String) : Bool :=
  p.toList.isSuffixOf s.toList

/-- Split a character list at every occurrence of `c` (JS `String.prototype.split`). -/
def splitCharAux (c : Char) : List Char → List Char → List (List Char)
  | [], cur => [cur.reverse]
  | x :: rest, cur =>
    if x = c then cur.reverse :: splitCharAux c rest []
    else splitCharAux c rest (x :: cur)

/-- JS `s.split(c)` for a single-character separator. -/
def splitOnChar (c : Char) (s : String) : List String :=
  (splitCharAux c s.toList []).map (fun l => String.mk l)

/-- Replace every backslash by a forward slash
(the posix branch of `normalizePath`'s `replace(/\\/g, "/")`). -/
def replaceBackslashes (s : String) : String :=
  String.mk (s.toList.map (fun c => if c = '\\' then '/' else c))

/-- JS `String.prototype.toLowerCase` restricted to ASCII (the characters the
case-insensitive patterns of the source can distinguish). -/
def strToLower (s : String) : String :=
  String.mk (s.toList.map Char.toLower)

/-- One step of Node's `normalizeString`: fold a path segment onto the stack of
segments kept so far (stored reversed).  `""` and `"."` are dropped, `".."` pops
the previous segment, or is kept when above the root and `allowAboveRoot`. -/
def normSegsStep (allowAboveRoot : Bool) (acc : List String) (s : String) : List String :=
  if s = "" ∨ s = "." then acc
  else if s = ".." then
    match acc with
    | x :: rest => if x = ".." then s :: x :: rest else rest
    | [] => if allowAboveRoot then [s] else []
  else s :: acc

/-- Node's `normalizeString`: collapse `.`/`..`/empty segments of a split path. -/
def normSegs (segs : List String) (allowAboveRoot : Bool) : List String :=
  (segs.foldl (normSegsStep allowAboveRoot) []).reverse

/-- Node `path.posix.normalize`. -/
def posixNormalize (p : String) : String :=
  if p = "" then "."
  else
    let isAbsolute := strStartsWith p "/"
    let trailingSeparator := strEndsWith p "/"
    let body := String.intercalate "/" (normSegs (splitOnChar '/' p) (!isAbsolute))
    if body = "" then
      if isAbsolute then "/"
      else if trailingSeparator then "./" else "."
    else
      let body := if trailingSeparator then body ++ "/" else body
      if isAbsolute then "/" ++ body else body

/-- Node `path.posix.resolve(p)` against working directory `cwd`
(`cwd` is assumed absolute, as `process.cwd()` always is). -/
def posixResolve (cwd p : String) : String :=
  let joined := if p = "" then cwd
    else if strStartsWith p "/" then p
    else cwd ++ "/" ++ p
  "/" ++ String.intercalate "/" (normSegs (splitOnChar '/' joined) false)

/-- Scan for Node `path.posix.dirname`: index (from the right) of the last `/`
that is left of the basename, skipping trailing slashes.  The list is the
path's characters reversed; `i` is the index in the original string. -/
def dirnameScan : List Char → Nat → Bool → Option Nat
  | [], _, _ => none
  | c :: rest, i, matchedSlash =>
    if i = 0 then none
    else if c = '/' then
      if matchedSlash then dirnameScan rest (i - 1) matchedSlash else some i
    else dirnameScan rest (i - 1) false

/-- Node `path.posix.dirname`. -/
def posixDirname (p : String) : String :=
  if p = "" then "."
  else
    let hasRoot := strStartsWith p "/"
    match dirnameScan p.toList.reverse (p.length - 1) true with
    | none => if hasRoot then "/" else "."
    | some e => if hasRoot ∧ e = 1 then "//" else String.mk (p.toList.take e)

/-- Node `path.posix.basename` (no extension argument). -/
def posixBasename (p : String) : String :=
  String.mk (((p.toList.reverse.dropWhile (fun c => c = '/')).takeWhile
    (fun c => ¬ c = '/')).reverse)

/-- Node `path.posix.join` of two parts (empty parts are skipped, then the
concatenation is normalized). -/
def posixJoin (a b : String) : String :=
  if a = "" ∧ b = "" then "."
  else if a = "" then posixNormalize b
  else if b = "" then posixNormalize a
  else posixNormalize (a ++ "/" ++ b)

/-- Ambient process state the path helpers read: the home directory
(`os.homedir()`) and the working directory (`process.cwd()`). -/
structure Env where
  home : String
  cwd : String

/-- `expandHome` (security.ts): expand a leading `~` to the home directory, only
for the bare `~` and for `~/`- or `~\`-prefixed paths.  The source's
`inputPath.replace("~", homedir())` replaces the first occurrence, which in
those branches is the leading character. -/
def expandHome (home : String) (inputPath : String) : String :=
  if ¬ strStartsWith inputPath "~" then inputPath
  else if inputPath = "~" ∨ strStartsWith inputPath "~/" ∨ strStartsWith inputPath "~\\" then
    home ++ inputPath.drop 1
  else inputPath

/-- `normalizePath` (security.ts), posix platform branch: Node `normalize`,
then all backslashes replaced by forward slashes. -/
def normalizePath (inputPath : String) : String :=
  if inputPath = "" then ""
  else replaceBackslashes (posixNormalize inputPath)

/-- The composition `normalizePath(resolve(expandHome(p)))` used throughout the
security module. -/
def normalizeFull (env : Env) (p : String) : String :=
  normalizePath (posixResolve env.cwd (expandHome env.home p))

/-- The allowed directory with a trailing separator appended unless already
present ("防止前缀攻击" in `isPathWithinAllowedDirectories`). -/
def withTrailingSep (s : String) : String :=
  if strEndsWith s "/" then s else s ++ "/"

/-- `isPathWithinAllowedDirectories` (security.ts): the requested path, fully
normalized, must equal an allowed directory or extend it past a separator. -/
def isPathWithinAllowedDirectories (env : Env) (requestedPath : String)
    (allowedDirectories : List String) : Bool :=
  if requestedPath = "" ∨ allowedDirectories = [] then false
  else
    allowedDirectories.any fun allowedDir =>
      if allowedDir = "" then false
      else
        decide (normalizeFull env requestedPath = normalizeFull env allowedDir) ||
          strStartsWith (normalizeFull env requestedPath)
            (withTrailingSep (normalizeFull env allowedDir))

/-- `containsIllegalCharacters` (security.ts), posix branch: only the null byte
is illegal. -/
def containsIllegalCharacters (inputPath : String) : Bool :=
  inputPath.toList.any (fun c => decide (c = Char.ofNat 0))

/-- The error kinds of `FileSystemErrorType` (types/index.ts). -/
inductive FileSystemErrorType
  | PATH_NOT_ALLOWED
  | FILE_NOT_FOUND
  | FILE_ALREADY_EXISTS
  | PERMISSION_DENIED
  | SYMLINK_TARGET_INVALID
  | DIRECTORY_NOT_EMPTY
  | INVALID_OPERATION
  | OPERATION_FAILED
  | VALIDATION_ERROR
deriving DecidableEq, Repr

/-- A filesystem node: a regular file with content and permission mode, a
directory with permission mode, or a symbolic link storing its target. -/
inductive FsNode
  | file (content : String) (mode : Nat)
  | dir (mode : Nat)
  | symlink (target : String)
deriving DecidableEq, Repr

/-- `stats.isDirectory()`. -/
def FsNode.isDirectory : FsNode → Bool
  | .dir _ => true
  | _ => false

/-- `stats.mode` (symlinks are never observed through `stat`, the value for
them is arbitrary). -/
def FsNode.modeOf : FsNode → Nat
  | .file _ m => m
  | .dir m => m
  | .symlink _ => 511

/-- `stats.size` (directories report 0 in this model). -/
def FsNode.sizeOf : FsNode → Nat
  | .file c _ => c.length
  | .dir _ => 0
  | .symlink _ => 0

/-- The filesystem: a finite map from canonical absolute path to node. -/
structure World where
  entries : List (String × FsNode)
deriving DecidableEq, Repr

def World.lookup (w : World) (p : String) : Option FsNode :=
  (w.entries.find? (fun e => decide (e.1 = p))).map (fun e => e.2)

/-- Insert (or overwrite) the entry at `p`. -/
def World.insertE (w : World) (p : String) (n : FsNode) : World :=
  ⟨(p, n) :: w.entries.filter (fun e => decide (¬ e.1 = p))⟩

/-- Remove the entry at `p`. -/
def World.removeE (w : World) (p : String) : World :=
  ⟨w.entries.filter (fun e => decide (¬ e.1 = p))⟩

/-- `fs.stat`: follow one level of symbolic link (longer chains are treated as
broken and fail, like a dangling link). -/
def World.statF (w : World) (p : String) : Option FsNode :=
  match w.lookup p with
  | some (.symlink t) =>
    match w.lookup t with
    | some (.symlink _) => none
    | some n => some n
    | none => none
  | some n => some n
  | none => none

/-- `fs.access` succeeds iff the path resolves to an existing node. -/
def World.access (w : World) (p : String) : Bool :=
  (w.statF p).isSome

/-- `fs.lstat`: do not follow symbolic links. -/
def World.lstatE (w : World) (p : String) : Option FsNode :=
  w.lookup p

/-- `fs.realpath`: the canonical path of the node `p` resolves to, failing on
dangling or chained links. -/
def World.realpathE (w : World) (p : String) : Option String :=
  match w.lookup p with
  | some (.symlink t) =>
    match w.lookup t with
    | some (.symlink _) => none
    | some _ => some t
    | none => none
  | some _ => some p
  | none => none

/-- `fs.rename`: move the entry (overwriting the destination). -/
def World.renameE (w : World) (src dst : String) : Option World :=
  match w.lookup src with
  | some n => some ((w.removeE src).insertE dst n)
  | none => none

/-- `fs.copyFile`: copy the (symlink-dereferenced) source file to `dst`. -/
def World.copyF (w : World) (src dst : String) : Option World :=
  match w.statF src with
  | some (.file c m) => some (w.insertE dst (.file c m))
  | _ => none

/-- `fs.unlink`: remove a non-directory entry. -/
def World.unlinkE (w : World) (p : String) : Option World :=
  match w.lookup p with
  | some (.dir _) => none
  | some _ => some (w.removeE p)
  | none => none

/-- `fs.rmdir`: remove an empty directory. -/
def World.rmdirE (w : World) (p : String) : Option World :=
  match w.lookup p with
  | some (.dir _) =>
    if w.entries.any (fun e => strStartsWith e.1 (p ++ "/")) then none
    else some (w.removeE p)
  | _ => none

/-- `fs.mkdir`: succeed (without change) if a directory is already there, fail
if a non-directory is there, otherwise create the directory.  Intermediate
parents are not tracked by the model. -/
def World.mkdirAt (w : World) (p : String) : Option World :=
  match w.lookup p with
  | some (.dir _) => some w
  | some _ => none
  | none => some (w.insertE p (.dir 493))

/-- `fs.chmod`: set the permission mode, following a symlink one level. -/
def World.chmodE (w : World) (p : String) (m : Nat) : Option World :=
  match w.lookup p with
  | some (.file c _) => some (w.insertE p (.file c m))
  | some (.dir _) => some (w.insertE p (.dir m))
  | some (.symlink t) =>
    match w.lookup t with
    | some (.file c _) => some (w.insertE t (.file c m))
    | some (.dir _) => some (w.insertE t (.dir m))
    | _ => none
  | none => none

/-- The shared walk of `validateNonExistentPath` (both security modules): climb
through parent directories; at the first parent whose real path resolves, accept
the path when that parent is allow-listed.  The `throw` raised when the parent
is not allow-listed is caught by the loop's own `catch`, so it also just climbs.
When no parent resolves, fall back to checking the path itself.  `fuel` bounds
the climb; callers pass more than the path's length, which `posixDirname`
strictly shrinks, so the bound is never hit. -/
def validateNonExistentWalk (env : Env) (allowed : List String) (w : World)
    (np : String) : String → Nat → Except FileSystemErrorType String
  | _, 0 =>
    if isPathWithinAllowedDirectories env np allowed then .ok np
    else .error .PATH_NOT_ALLOWED
  | currentDir, fuel + 1 =>
    if currentDir ≠ "" ∧ currentDir ≠ posixDirname currentDir then
      match w.realpathE currentDir with
      | some realParentPath =>
        if isPathWithinAllowedDirectories env (normalizePath realParentPath) allowed then
          .ok np
        else
          validateNonExistentWalk env allowed w np (posixDirname currentDir) fuel
      | none => validateNonExistentWalk env allowed w np (posixDirname currentDir) fuel
    else
      if isPathWithinAllowedDirectories env np allowed then .ok np
      else .error .PATH_NOT_ALLOWED

namespace SecurityA

/-- `SecurityConfig` as used by fs-server's security.ts. -/
structure SecurityConfig where
  enablePathTraversalProtection : Bool
  allowForceDelete : Bool
  forceDeleteRequiresConfirmation : Bool
  allowedDirectories : List String

/-- `SECURITY_CONFIG` after `initializeSecurity(allowedDirectories)`: the
literal constants of the module with the allow-list filled in. -/
def initializeSecurity (allowedDirectories : List String) : SecurityConfig :=
  { enablePathTraversalProtection := true
    allowForceDelete := true
    forceDeleteRequiresConfirmation := true
    allowedDirectories := allowedDirectories }

/-- `validatePath` (fs-server security.ts): empty check, home expansion,
resolution, normalization, illegal characters, allow-list, then existence
(falling back to the parent walk for `ENOENT`). -/
def validatePath (env : Env) (cfg : SecurityConfig) (w : World)
    (requestedPath : String) : Except FileSystemErrorType String :=
  if requestedPath = "" then .error .VALIDATION_ERROR
  else if containsIllegalCharacters (normalizeFull env requestedPath) then
    .error .VALIDATION_ERROR
  else if cfg.enablePathTraversalProtection &&
      !(isPathWithinAllowedDirectories env (normalizeFull env requestedPath)
        cfg.allowedDirectories) then
    .error .PATH_NOT_ALLOWED
  else if w.access (normalizeFull env requestedPath) then
    .ok (normalizeFull env requestedPath)
  else
    validateNonExistentWalk env cfg.allowedDirectories w
      (normalizeFull env requestedPath)
      (posixDirname (normalizeFull env requestedPath))
      ((normalizeFull env requestedPath).length + 2)

end SecurityA

/-- The action field of an elicitation result. -/
inductive ElicitAction
  | accept
  | decline
  | other
deriving DecidableEq, Repr

/-- The structured response of `elicitInput`: the action, and the two boolean
form fields (absent or non-boolean content is `none`). -/
structure ElicitResult where
  action : ElicitAction
  confirm : Option Bool
  acknowledged : Option Bool
deriving DecidableEq, Repr

/-- What the elicitation round trip of `confirmSensitiveDeleteAction` can
observe: no usable server handle (`!server || !server.server ||
!server.server.elicitInput`), the call throwing, or a structured response. -/
inductive ElicitChannel
  | unavailable
  | failed
  | responds (r : ElicitResult)
deriving DecidableEq, Repr

/-- `confirmSensitiveDeleteAction` (fs-server security.ts): accept only an
explicit `accept` whose `confirm` and `acknowledged` fields are both `true`;
a missing capability, a thrown error, a decline, or anything else is `false`. -/
def confirmSensitiveDeleteAction (ch : ElicitChannel) : Bool :=
  match ch with
  | .unavailable => false
  | .failed => false
  | .responds result =>
    match result.action with
    | .accept =>
      decide (result.confirm = some true) && decide (result.acknowledged = some true)
    | .decline => false
    | .other => false

namespace SecurityA

/-- `validateForceDeleteOperation` (fs-server security.ts). -/
def validateForceDeleteOperation (cfg : SecurityConfig) (ch : ElicitChannel) :
    Except FileSystemErrorType Unit :=
  if cfg.allowForceDelete = false then .error .PERMISSION_DENIED
  else if cfg.forceDeleteRequiresConfirmation then
    if confirmSensitiveDeleteAction ch then .ok () else .error .PERMISSION_DENIED
  else .ok ()

end SecurityA

namespace SecurityB

/-- `SecurityConfig` of the symlink-validating security module (the module in
the repository defining `validateSymlinkSecurity`). -/
structure SecurityConfig where
  allowedDirectories : List String
  maxFileSize : Nat
  restrictedExtensions : List String
  enableSymlinkValidation : Bool
  enablePathTraversalProtection : Bool

/-- `DEFAULT_SECURITY_CONFIG`. -/
def DEFAULT_SECURITY_CONFIG : SecurityConfig :=
  { allowedDirectories := []
    maxFileSize := 100 * 1024 * 1024
    restrictedExtensions := [".exe", ".bat", ".cmd", ".com", ".scr"]
    enableSymlinkValidation := true
    enablePathTraversalProtection := true }

/-- `isRestrictedExtension`: the text after the last dot of the lower-cased
path (JS `split('.').pop()`), looked up in the restricted list. -/
def isRestrictedExtension (cfg : SecurityConfig) (filePath : String) : Bool :=
  let extension := (splitOnChar '.' (strToLower filePath)).getLastD ""
  if extension = "" then false
  else cfg.restrictedExtensions.contains ("." ++ extension)

/-- `validateFileSize`: reject files larger than `maxFileSize`; a failing
`stat` skips the check. -/
def validateFileSize (cfg : SecurityConfig) (w : World) (filePath : String) :
    Except FileSystemErrorType Unit :=
  match w.statF filePath with
  | none => .ok ()
  | some n => if n.sizeOf > cfg.maxFileSize then .error .VALIDATION_ERROR else .ok ()

/-- `validateSymlinkSecurity`: resolve the link's real path and re-run the
allow-list check on it; an unresolvable link or an escaping target is
`SYMLINK_TARGET_INVALID`. -/
def validateSymlinkSecurity (env : Env) (cfg : SecurityConfig) (w : World)
    (linkPath : String) : Except FileSystemErrorType String :=
  if cfg.enableSymlinkValidation = false then .ok linkPath
  else
    match w.realpathE linkPath with
    | none => .error .SYMLINK_TARGET_INVALID
    | some realPath =>
      if isPathWithinAllowedDirectories env (normalizePath realPath)
          cfg.allowedDirectories then .ok realPath
      else .error .SYMLINK_TARGET_INVALID

/-- `validatePath` of the symlink-validating security module: empty check,
normalization, illegal characters, allow-list, restricted extension, then
`lstat` — a symlink goes through `validateSymlinkSecurity`, an existing node
through `validateFileSize`, and `ENOENT` through the parent walk. -/
def validatePath (env : Env) (cfg : SecurityConfig) (w : World)
    (requestedPath : String) : Except FileSystemErrorType String :=
  if requestedPath = "" then .error .VALIDATION_ERROR
  else if containsIllegalCharacters (normalizeFull env requestedPath) then
    .error .VALIDATION_ERROR
  else if cfg.enablePathTraversalProtection &&
      !(isPathWithinAllowedDirectories env (normalizeFull env requestedPath)
        cfg.allowedDirectories) then
    .error .PATH_NOT_ALLOWED
  else if isRestrictedExtension cfg (normalizeFull env requestedPath) then
    .error .VALIDATION_ERROR
  else
    match w.lstatE (normalizeFull env requestedPath) with
    | some (.symlink _) =>
      validateSymlinkSecurity env cfg w (normalizeFull env requestedPath)
    | some _ =>
      match validateFileSize cfg w (normalizeFull env requestedPath) with
      | .error e => .error e
      | .ok _ => .ok (normalizeFull env requestedPath)
    | none =>
      validateNonExistentWalk env cfg.allowedDirectories w
        (normalizeFull env requestedPath)
        (posixDirname (normalizeFull env requestedPath))
        ((normalizeFull env requestedPath).length + 2)

end SecurityB

namespace FileOps

/-- A directory-pattern name followed directly by a path separator at the head
of `l` (the `name[\/\\]` tail of the sensitive-directory regexes). -/
def nameSepAt (name : List Char) (l : List Char) : Bool :=
  name.isPrefixOf l &&
    match l.drop name.length with
    | c :: _ => c = '/' || c = '\\'
    | [] => false

/-- Scan every position after a separator for one of the directory names
(the `(?:^|[\/\\])` prefix of the sensitive-directory regexes). -/
def boundedScan (names : List String) : List Char → Bool
  | [] => false
  | c :: rest =>
    ((c = '/' || c = '\\') && names.any (fun n => nameSepAt n.toList rest)) ||
      boundedScan names rest

/-- `(?:^|[\/\\])(?:name...)[\/\\]` over the whole string. -/
def hasBoundedDir (names : List String) (s : List Char) : Bool :=
  names.any (fun n => nameSepAt n.toList s) || boundedScan names s

/-- The extension alternatives of the four `$`-anchored sensitive patterns. -/
def sensitiveExtensions : List String :=
  [".ini", ".cfg", ".conf", ".config", ".json", ".xml", ".yaml", ".yml",
   ".exe", ".dll", ".sys", ".bat", ".cmd", ".ps1", ".sh", ".bash",
   ".db", ".sqlite", ".mdb", ".accdb",
   ".key", ".pem", ".crt", ".cert", ".p12", ".pfx"]

/-- `isSensitiveFile` (file-operations.ts): system directories, config /
executable / database / credential extensions, or Unix system directories.
All patterns carry the `i` flag, modelled by lower-casing. -/
def isSensitiveFile (filePath : String) : Bool :=
  let lower := strToLower filePath
  hasBoundedDir ["system32", "syswow64", "windows", "program files", "applications"]
      lower.toList ||
    sensitiveExtensions.any (fun e => strEndsWith lower e) ||
    hasBoundedDir ["etc", "bin", "sbin", "usr/bin", "usr/sbin"] lower.toList

/-- `isReadOnlyFile` (file-operations.ts): the owner-write bit (0o200) of
`stats.mode` is unset (the win32 and Unix branches compute the same test). -/
def isReadOnlyFile (stats : FsNode) : Bool :=
  decide (stats.modeOf &&& 128 = 0)

/-- Result aggregate of the batch operations (types/index.ts). -/
structure BatchOperationResult where
  results : List String
  errors : List String
  totalCount : Nat
  successCount : Nat
  errorCount : Nat
deriving DecidableEq, Repr

/-- Rendering of a thrown `FileSystemError` into the message string pushed onto
a batch's `errors` list (messages abstract the source's text). -/
def errorMessage : FileSystemErrorType → String
  | .PATH_NOT_ALLOWED => "path not allowed"
  | .FILE_NOT_FOUND => "file not found"
  | .FILE_ALREADY_EXISTS => "file already exists"
  | .PERMISSION_DENIED => "permission denied"
  | .SYMLINK_TARGET_INVALID => "symlink target invalid"
  | .DIRECTORY_NOT_EMPTY => "directory not empty"
  | .INVALID_OPERATION => "invalid operation"
  | .OPERATION_FAILED => "operation failed"
  | .VALIDATION_ERROR => "validation error"

/-- `moveFile` (file-operations.ts): validate both endpoints, require the
source, reject an existing destination unless `overwrite`, optionally create
the destination's parent, then rename. -/
def moveFile (env : Env) (cfg : SecurityA.SecurityConfig) (w : World)
    (source destination : String) (overwrite createDirs : Bool) :
    World × Except FileSystemErrorType String :=
  match SecurityA.validatePath env cfg w source with
  | .error e => (w, .error e)
  | .ok validatedSource =>
    match SecurityA.validatePath env cfg w destination with
    | .error e => (w, .error e)
    | .ok validatedDestination =>
      if w.access validatedSource = false then (w, .error .FILE_NOT_FOUND)
      else if !overwrite && w.access validatedDestination then
        (w, .error .FILE_ALREADY_EXISTS)
      else
        match (if createDirs then w.mkdirAt (posixDirname validatedDestination)
               else some w) with
        | none => (w, .error .OPERATION_FAILED)
        | some w1 =>
          match w1.renameE validatedSource validatedDestination with
          | some w2 =>
            (w2, .ok ("文件移动成功：" ++ validatedSource ++ " -> " ++
              validatedDestination))
          | none => (w1, .error .OPERATION_FAILED)

/-- `copyFile` (file-operations.ts): same checks as `moveFile`, then a
byte-for-byte copy leaving the source untouched. -/
def copyFile (env : Env) (cfg : SecurityA.SecurityConfig) (w : World)
    (source destination : String) (overwrite createDirs : Bool) :
    World × Except FileSystemErrorType String :=
  match SecurityA.validatePath env cfg w source with
  | .error e => (w, .error e)
  | .ok validatedSource =>
    match SecurityA.validatePath env cfg w destination with
    | .error e => (w, .error e)
    | .ok validatedDestination =>
      if w.access validatedSource = false then (w, .error .FILE_NOT_FOUND)
      else if !overwrite && w.access validatedDestination then
        (w, .error .FILE_ALREADY_EXISTS)
      else
        match (if createDirs then w.mkdirAt (posixDirname validatedDestination)
               else some w) with
        | none => (w, .error .OPERATION_FAILED)
        | some w1 =>
          match w1.copyF validatedSource validatedDestination with
          | some w2 =>
            (w2, .ok ("文件复制成功：" ++ validatedSource ++ " -> " ++
              validatedDestination))
          | none => (w1, .error .OPERATION_FAILED)

/-- `deleteFile` (file-operations.ts): validate, require an existing
non-directory, block sensitive and read-only files unless `force`, gate a
forced delete through `validateForceDeleteOperation`, then unlink. -/
def deleteFile (env : Env) (cfg : SecurityA.SecurityConfig) (ch : ElicitChannel)
    (w : World) (filePath : String) (force : Bool) :
    World × Except FileSystemErrorType String :=
  match SecurityA.validatePath env cfg w filePath with
  | .error e => (w, .error e)
  | .ok validatedPath =>
    if w.access validatedPath = false then (w, .error .FILE_NOT_FOUND)
    else
      match w.statF validatedPath with
      | none => (w, .error .FILE_NOT_FOUND)
      | some stats =>
        if stats.isDirectory then (w, .error .INVALID_OPERATION)
        else if !force && isSensitiveFile validatedPath then
          (w, .error .PERMISSION_DENIED)
        else if !force && isReadOnlyFile stats then
          (w, .error .PERMISSION_DENIED)
        else
          match (if force then SecurityA.validateForceDeleteOperation cfg ch
                 else .ok ()) with
          | .error e => (w, .error e)
          | .ok _ =>
            match w.unlinkE validatedPath with
            | some w1 => (w1, .ok ("文件删除成功：" ++ validatedPath))
            | none => (w, .error .OPERATION_FAILED)

/-- The per-item loop shared by the batch operations: run the item's operation
on the current world; a success appends one result string, any error appends
its message to `errors` and the loop continues with the next item. -/
def batchLoop (step : World → String → World × Except FileSystemErrorType String) :
    World → List String → World × List String × List String
  | w, [] => (w, [], [])
  | w, x :: xs =>
    match step w x with
    | (w1, .ok r) =>
      let rest := batchLoop step w1 xs
      (rest.1, r :: rest.2.1, rest.2.2)
    | (w1, .error e) =>
      let rest := batchLoop step w1 xs
      (rest.1, rest.2.1, errorMessage e :: rest.2.2)

/-- Package a finished loop into the returned `BatchOperationResult`. -/
def mkBatchResult (total : Nat) (out : World × List String × List String) :
    World × Except FileSystemErrorType BatchOperationResult :=
  (out.1, .ok
    { results := out.2.1
      errors := out.2.2
      totalCount := total
      successCount := out.2.1.length
      errorCount := out.2.2.length })

/-- One iteration of `batchMoveFiles`' loop: validate the source, compute the
target inside the destination directory, and move with the batch's `overwrite`
(`createDirs` defaults to `true` inside `moveFile`). -/
def batchMoveItem (env : Env) (cfg : SecurityA.SecurityConfig) (overwrite : Bool)
    (validatedDestination : String) (w : World) (source : String) :
    World × Except FileSystemErrorType String :=
  match SecurityA.validatePath env cfg w source with
  | .error e => (w, .error e)
  | .ok validatedSource =>
    let targetPath := posixJoin validatedDestination (posixBasename validatedSource)
    match moveFile env cfg w validatedSource targetPath overwrite true with
    | (w1, .ok _) => (w1, .ok (validatedSource ++ " -> " ++ targetPath))
    | (w1, .error e) => (w1, .error e)

/-- `batchMoveFiles` (file-operations.ts): validate the destination, require it
to be a directory (creating it when `createDirs`), then run the per-item loop.
-/
def batchMoveFiles (env : Env) (cfg : SecurityA.SecurityConfig) (w : World)
    (sources : List String) (destination : String) (overwrite createDirs : Bool) :
    World × Except FileSystemErrorType BatchOperationResult :=
  match SecurityA.validatePath env cfg w destination with
  | .error e => (w, .error e)
  | .ok validatedDestination =>
    match w.statF validatedDestination with
    | some destStats =>
      if destStats.isDirectory = false then (w, .error .INVALID_OPERATION)
      else
        mkBatchResult sources.length
          (batchLoop (batchMoveItem env cfg overwrite validatedDestination) w sources)
    | none =>
      if createDirs then
        match w.mkdirAt validatedDestination with
        | some w1 =>
          mkBatchResult sources.length
            (batchLoop (batchMoveItem env cfg overwrite validatedDestination) w1 sources)
        | none => (w, .error .INVALID_OPERATION)
      else (w, .error .FILE_NOT_FOUND)

/-- One iteration of `batchCopyFiles`' loop. -/
def batchCopyItem (env : Env) (cfg : SecurityA.SecurityConfig) (overwrite : Bool)
    (validatedDestination : String) (w : World) (source : String) :
    World × Except FileSystemErrorType String :=
  match SecurityA.validatePath env cfg w source with
  | .error e => (w, .error e)
  | .ok validatedSource =>
    let targetPath := posixJoin validatedDestination (posixBasename validatedSource)
    match copyFile env cfg w validatedSource targetPath overwrite true with
    | (w1, .ok _) => (w1, .ok (validatedSource ++ " -> " ++ targetPath))
    | (w1, .error e) => (w1, .error e)

/-- `batchCopyFiles` (file-operations.ts): validate the destination, create it
when `createDirs`, require it to be a directory, then run the per-item loop. -/
def batchCopyFiles (env : Env) (cfg : SecurityA.SecurityConfig) (w : World)
    (sources : List String) (destination : String) (overwrite createDirs : Bool) :
    World × Except FileSystemErrorType BatchOperationResult :=
  match SecurityA.validatePath env cfg w destination with
  | .error e => (w, .error e)
  | .ok validatedDestination =>
    match (if createDirs then w.mkdirAt validatedDestination else some w) with
    | none => (w, .error .OPERATION_FAILED)
    | some w1 =>
      match w1.statF validatedDestination with
      | some destStats =>
        if destStats.isDirectory = false then (w1, .error .INVALID_OPERATION)
        else
          mkBatchResult sources.length
            (batchLoop (batchCopyItem env cfg overwrite validatedDestination) w1 sources)
      | none => (w1, .error .FILE_NOT_FOUND)

/-- One iteration of `batchDeleteFiles`' loop: a missing file, a sensitive or
read-only file (without `force`), or a failing removal each contribute one
error string; otherwise the file (or empty directory) is removed. -/
def batchDeleteItem (env : Env) (cfg : SecurityA.SecurityConfig) (force : Bool)
    (w : World) (filePath : String) : World × Except FileSystemErrorType String :=
  match SecurityA.validatePath env cfg w filePath with
  | .error e => (w, .error e)
  | .ok validatedPath =>
    if w.access validatedPath = false then (w, .error .FILE_NOT_FOUND)
    else
      match w.statF validatedPath with
      | none => (w, .error .FILE_NOT_FOUND)
      | some stats =>
        if !force && isSensitiveFile validatedPath then (w, .error .PERMISSION_DENIED)
        else if !force && isReadOnlyFile stats then (w, .error .PERMISSION_DENIED)
        else if stats.isDirectory then
          match w.rmdirE validatedPath with
          | some w1 => (w1, .ok ("目录已删除: " ++ validatedPath))
          | none => (w, .error .DIRECTORY_NOT_EMPTY)
        else
          match w.unlinkE validatedPath with
          | some w1 => (w1, .ok ("文件已删除: " ++ validatedPath))
          | none => (w, .error .OPERATION_FAILED)

/-- `batchDeleteFiles` (file-operations.ts): a forced batch first passes the
force gate; an unforced batch pre-scans every path and rejects the whole batch
when any validated path is sensitive; then the per-item loop runs. -/
def batchDeleteFiles (env : Env) (cfg : SecurityA.SecurityConfig)
    (ch : ElicitChannel) (w : World) (paths : List String) (force : Bool) :
    World × Except FileSystemErrorType BatchOperationResult :=
  match (if force then SecurityA.validateForceDeleteOperation cfg ch
         else .ok ()) with
  | .error e => (w, .error e)
  | .ok _ =>
    if (if force then ([] : List String)
        else
          paths.filter fun path =>
            match SecurityA.validatePath env cfg w path with
            | .ok validatedPath => isSensitiveFile validatedPath
            | .error _ => false).length > 0 then
      (w, .error .PERMISSION_DENIED)
    else
      mkBatchResult paths.length (batchLoop (batchDeleteItem env cfg force) w paths)

end FileOps

/-- JS `parseInt(s, 8)`: skip leading whitespace, take an optional sign, then
the longest prefix of octal digits; no digit at all is `NaN` (`none`). -/
def jsParseIntOct (s : String) : Option Int :=
  let t := s.toList.dropWhile fun c =>
    c = ' ' ∨ c = '\t' ∨ c = '\n' ∨ c = '\r'
  let (sign, rest) :=
    match t with
    | '-' :: r => ((-1 : Int), r)
    | '+' :: r => ((1 : Int), r)
    | r => ((1 : Int), r)
  let digits := rest.takeWhile fun c => '0' ≤ c ∧ c ≤ '7'
  if digits = [] then none
  else some (sign * (digits.foldl (fun a c => a * 8 + (c.toNat - 48)) (0 : Nat) : Nat))

namespace Utils

/-- `createDirectory` (utils.ts): validate; an existing directory is reported
as already existing with no change, an existing non-directory is
`FILE_ALREADY_EXISTS`; otherwise the directory is created. -/
def createDirectory (env : Env) (cfg : SecurityA.SecurityConfig) (w : World)
    (dirPath : String) (_recursive : Bool) : World × Except FileSystemErrorType String :=
  match SecurityA.validatePath env cfg w dirPath with
  | .error e => (w, .error e)
  | .ok validatedPath =>
    match w.statF validatedPath with
    | some stats =>
      if stats.isDirectory then (w, .ok ("目录已存在：" ++ validatedPath))
      else (w, .error .FILE_ALREADY_EXISTS)
    | none =>
      match w.mkdirAt validatedPath with
      | some w1 => (w1, .ok ("目录创建成功：" ++ validatedPath))
      | none => (w, .error .OPERATION_FAILED)

/-- `createHardLink` (utils.ts): validate both endpoints, require an existing
non-directory source (`INVALID_OPERATION` for a directory), reject an existing
destination unless `overwrite`, optionally create the destination's parent,
unlink an overwritten destination, then link. -/
def createHardLink (env : Env) (cfg : SecurityA.SecurityConfig) (w : World)
    (source destination : String) (overwrite createDirs : Bool) :
    World × Except FileSystemErrorType String :=
  match SecurityA.validatePath env cfg w source with
  | .error e => (w, .error e)
  | .ok validatedSource =>
    match SecurityA.validatePath env cfg w destination with
    | .error e => (w, .error e)
    | .ok validatedDestination =>
      if w.access validatedSource = false then (w, .error .FILE_NOT_FOUND)
      else
        match w.statF validatedSource with
        | none => (w, .error .OPERATION_FAILED)
        | some sourceStats =>
          if sourceStats.isDirectory then (w, .error .INVALID_OPERATION)
          else if !overwrite && w.access validatedDestination then
            (w, .error .FILE_ALREADY_EXISTS)
          else
            match (if createDirs then w.mkdirAt (posixDirname validatedDestination)
                   else some w) with
            | none => (w, .error .OPERATION_FAILED)
            | some w1 =>
              let w2 := if overwrite then (w1.unlinkE validatedDestination).getD w1
                        else w1
              match w2.lookup validatedDestination with
              | some _ => (w2, .error .OPERATION_FAILED)
              | none =>
                match w2.lookup validatedSource with
                | some n =>
                  (w2.insertE validatedDestination n,
                    .ok ("硬链接创建成功：" ++ validatedSource ++ " -> " ++
                      validatedDestination))
                | none => (w2, .error .OPERATION_FAILED)

/-- `changeFilePermissions` (utils.ts): validate, require existence, parse the
mode with `parseInt(mode, 8)` and reject `NaN` or a value outside
`[0, 0o777]` as `VALIDATION_ERROR`, then chmod. -/
def changeFilePermissions (env : Env) (cfg : SecurityA.SecurityConfig) (w : World)
    (filePath : String) (mode : String) : World × Except FileSystemErrorType String :=
  match SecurityA.validatePath env cfg w filePath with
  | .error e => (w, .error e)
  | .ok validatedPath =>
    if w.access validatedPath = false then (w, .error .FILE_NOT_FOUND)
    else
      match jsParseIntOct mode with
      | none => (w, .error .VALIDATION_ERROR)
      | some numericMode =>
        if numericMode < 0 ∨ numericMode > 511 then (w, .error .VALIDATION_ERROR)
        else
          match w.chmodE validatedPath numericMode.toNat with
          | some w1 => (w1, .ok ("权限修改成功：" ++ validatedPath ++ " " ++ mode))
          | none => (w, .error .OPERATION_FAILED)

end Utils

section Lemmas

/-- `strStartsWith` is antitone in the prefix. -/
theorem strStartsWith_mono {p a b : String} (hab : a.toList <+: b.toList)
    (h : strStartsWith p b = true) : strStartsWith p a = true := by
  unfold strStartsWith at *
  rw [List.isPrefixOf_iff_prefix] at *
  exact hab.trans h

/-- The parent walk only ever accepts the path it was given. -/
theorem validateNonExistentWalk_ok {env : Env} {allowed : List String} {w : World}
    {np : String} : ∀ (cur : String) (fuel : Nat) (x : String),
    validateNonExistentWalk env allowed w np cur fuel = .ok x → x = np := by
  intro cur fuel
  induction fuel generalizing cur with
  | zero =>
    intro x h
    unfold validateNonExistentWalk at h
    split at h
    · exact (Except.ok.inj h).symm
    · exact Except.noConfusion h
  | succ n ih =>
    intro x h
    unfold validateNonExistentWalk at h
    split at h
    · split at h
      · split at h
        · exact (Except.ok.inj h).symm
        · exact ih _ x h
      · exact ih _ x h
    · split at h
      · exact (Except.ok.inj h).symm
      · exact Except.noConfusion h

/-- A successful `validatePath` returns exactly the fully normalized path. -/
theorem validatePathA_ok_eq {env : Env} {cfg : SecurityA.SecurityConfig}
    {w : World} {p q : String}
    (h : SecurityA.validatePath env cfg w p = .ok q) : q = normalizeFull env p := by
  unfold SecurityA.validatePath at h
  split at h
  · exact Except.noConfusion h
  · split at h
    · exact Except.noConfusion h
    · split at h
      · exact Except.noConfusion h
      · split at h
        · exact (Except.ok.inj h).symm
        · exact validateNonExistentWalk_ok _ _ _ h

/-- A path accepted by `validatePath` is accepted again in any world where the
returned path is accessible (the pure checks do not read the filesystem). -/
theorem validatePathA_stable {env : Env} {cfg : SecurityA.SecurityConfig}
    {w w2 : World} {p q : String}
    (h : SecurityA.validatePath env cfg w p = .ok q)
    (hacc : w2.access q = true) :
    SecurityA.validatePath env cfg w2 p = .ok q := by
  have hq := validatePathA_ok_eq h
  subst hq
  unfold SecurityA.validatePath at h ⊢
  split at h
  · exact Except.noConfusion h
  next hc1 =>
    split at h
    · exact Except.noConfusion h
    next hc2 =>
      split at h
      · exact Except.noConfusion h
      next hc3 =>
        rw [if_neg hc1, if_neg hc2, if_neg hc3, if_pos hacc]

end Lemmas

/-- C9: `expandHome` returns its input unchanged for every path not beginning
with `~`, and for every path beginning with `~` followed by anything other than
`/` or `\`; only the exact `~`, or a `~/`- or `~\`-prefixed path, has the
leading `~` replaced by the home directory. -/
theorem c9_expandHome_limited (home p : String) :
    (strStartsWith p "~" = false → expandHome home p = p) ∧
    (strStartsWith p "~" = true → p ≠ "~" → strStartsWith p "~/" = false →
      strStartsWith p "~\\" = false → expandHome home p = p) ∧
    (expandHome home "~" = home) ∧
    (strStartsWith p "~/" = true → expandHome home p = home ++ p.drop 1) ∧
    (strStartsWith p "~\\" = true → expandHome home p = home ++ p.drop 1) := by
  refine ⟨?_, ?_, ?_, ?_, ?_⟩
  · intro h
    simp [expandHome, h]
  · intro h1 h2 h3 h4
    simp [expandHome, h1, h2, h3, h4]
  · have h : expandHome home "~" = home ++ "~".drop 1 := rfl
    have h2 : ("~" : String).drop 1 = "" := rfl
    rw [h, h2]
    simp
  · intro h
    have h1 : strStartsWith p "~" = true :=
      strStartsWith_mono ⟨['/'], rfl⟩ h
    simp [expandHome, h1, h]
  · intro h
    have h1 : strStartsWith p "~" = true :=
      strStartsWith_mono ⟨['\\'], rfl⟩ h
    simp [expandHome, h1, h]

/-- C9 witness: concrete evaluations of the three regimes. -/
theorem c9_expandHome_limited_witness :
    expandHome "/home/u" "x/y" = "x/y" ∧
    expandHome "/home/u" "~user/file" = "~user/file" ∧
    expandHome "/home/u" "~" = "/home/u" ∧
    expandHome "/home/u" "~/f" = "/home/u/f" :=
  ⟨(c9_expandHome_limited "/home/u" "x/y").1 rfl,
   (c9_expandHome_limited "/home/u" "~user/file").2.1 rfl (by decide) rfl rfl,
   (c9_expandHome_limited "/home/u" "~").2.2.1,
   by
     have h := (c9_expandHome_limited "/home/u" "~/f").2.2.2.1 rfl
     rw [h]
     rfl⟩

/-- C3: when the elicitation channel is unavailable, the call fails, or the
response is anything other than an explicit accept with `confirm` and
`acknowledged` both `true`, the confirmation check returns `false`, and the
force gate (whose configuration requires confirmation) rejects with
`PERMISSION_DENIED`. -/
theorem c3_fail_closed_confirmation (ch : ElicitChannel)
    (cfg : SecurityA.SecurityConfig)
    (h : ∀ r : ElicitResult, ch = ElicitChannel.responds r →
      r.action = ElicitAction.accept → r.confirm = some true →
      r.acknowledged = some true → False) :
    confirmSensitiveDeleteAction ch = false ∧
    (cfg.forceDeleteRequiresConfirmation = true →
      SecurityA.validateForceDeleteOperation cfg ch =
        .error FileSystemErrorType.PERMISSION_DENIED) := by
  have h1 : confirmSensitiveDeleteAction ch = false := by
    cases ch with
    | unavailable => rfl
    | failed => rfl
    | responds r =>
      cases hr : r.action with
      | accept =>
        have := h r rfl hr
        simp only [confirmSensitiveDeleteAction, hr]
        by_cases hc : r.confirm = some true
        · by_cases ha : r.acknowledged = some true
          · exact absurd ha (fun ha2 => this hc ha2)
          · simp [hc, ha]
        · simp [hc]
      | decline => simp [confirmSensitiveDeleteAction, hr]
      | other => simp [confirmSensitiveDeleteAction, hr]
  refine ⟨h1, fun hreq => ?_⟩
  unfold SecurityA.validateForceDeleteOperation
  by_cases hforce : cfg.allowForceDelete = false
  · simp [hforce]
  · simp [hforce, hreq, h1]

/-- C3 witness: the unavailable channel with the initialized configuration. -/
theorem c3_fail_closed_confirmation_witness :
    confirmSensitiveDeleteAction ElicitChannel.unavailable = false ∧
    SecurityA.validateForceDeleteOperation (SecurityA.initializeSecurity ["/d"])
      ElicitChannel.unavailable = .error FileSystemErrorType.PERMISSION_DENIED := by
  have h := c3_fail_closed_confirmation ElicitChannel.unavailable
    (SecurityA.initializeSecurity ["/d"])
    (fun r hr => ElicitChannel.noConfusion hr)
  exact ⟨h.1, h.2 rfl⟩

/-- A fixed ambient environment for concrete instances. -/
def exampleEnv : Env := ⟨"/home/user", "/"⟩

/-- An empty filesystem for concrete instances. -/
def exampleWorld : World := ⟨[]⟩

/-- C1: the allow-list check succeeds only when the fully normalized path
equals a (nonempty) allowed directory or extends it past a separator; the
empty allow-list rejects everything, and with traversal protection (always on
in the shipped configuration) `validatePath` can then never succeed; a path
accepted by `validatePath` always passes the allow-list check; and the sibling
`/allowed-evil` of `/allowed` is rejected while `/allowed` itself and its
descendants are accepted. -/
theorem c1_allowlist_containment (env : Env) (cfg : SecurityA.SecurityConfig)
    (w : World) (p q : String) :
    (isPathWithinAllowedDirectories env p cfg.allowedDirectories = true →
      ∃ d ∈ cfg.allowedDirectories, d ≠ "" ∧
        (normalizeFull env p = normalizeFull env d ∨
          strStartsWith (normalizeFull env p)
            (withTrailingSep (normalizeFull env d)) = true)) ∧
    (isPathWithinAllowedDirectories env p [] = false) ∧
    (cfg.allowedDirectories = [] → cfg.enablePathTraversalProtection = true →
      SecurityA.validatePath env cfg w p ≠ .ok q) ∧
    (cfg.enablePathTraversalProtection = true →
      SecurityA.validatePath env cfg w p = .ok q →
      isPathWithinAllowedDirectories env q cfg.allowedDirectories = true) ∧
    (isPathWithinAllowedDirectories exampleEnv "/allowed-evil" ["/allowed"] = false) ∧
    (isPathWithinAllowedDirectories exampleEnv "/allowed/file.txt" ["/allowed"] = true) ∧
    (isPathWithinAllowedDirectories exampleEnv "/allowed" ["/allowed"] = true) := by
  have hempty : ∀ x : String, isPathWithinAllowedDirectories env x [] = false := by
    intro x
    unfold isPathWithinAllowedDirectories
    rw [if_pos (Or.inr rfl)]
  have hsound : isPathWithinAllowedDirectories env p cfg.allowedDirectories = true →
      ∃ d ∈ cfg.allowedDirectories, d ≠ "" ∧
        (normalizeFull env p = normalizeFull env d ∨
          strStartsWith (normalizeFull env p)
            (withTrailingSep (normalizeFull env d)) = true) := by
    intro h
    unfold isPathWithinAllowedDirectories at h
    split at h
    · exact absurd h (by simp)
    next hcond =>
      rw [List.any_eq_true] at h
      obtain ⟨d, hd, hpred⟩ := h
      by_cases hde : d = ""
      · rw [if_pos hde] at hpred
        exact absurd hpred (by simp)
      · rw [if_neg hde] at hpred
        rcases (Bool.or_eq_true _ _).mp hpred with heq | hpre
        · exact ⟨d, hd, hde, Or.inl (of_decide_eq_true heq)⟩
        · exact ⟨d, hd, hde, Or.inr hpre⟩
  have hgate : cfg.enablePathTraversalProtection = true →
      SecurityA.validatePath env cfg w p = .ok q →
      isPathWithinAllowedDirectories env q cfg.allowedDirectories = true := by
    intro hprot hok
    have hq := validatePathA_ok_eq hok
    subst hq
    unfold SecurityA.validatePath at hok
    split at hok
    · exact Except.noConfusion hok
    · split at hok
      · exact Except.noConfusion hok
      · split at hok
        next hc => exact Except.noConfusion hok
        next hc =>
          simp only [hprot, Bool.true_and, Bool.not_eq_true',
            Bool.not_eq_false] at hc
          exact hc
  refine ⟨hsound, hempty p, ?_, hgate, by decide, by decide, by decide⟩
  intro hnil hprot hok
  have h1 := hgate hprot hok
  rw [hnil] at h1
  exact Bool.noConfusion ((hempty q).symm.trans h1)

/-- C1 witness: the containment evidence for `/allowed/file.txt`, and the
rejection of a path under the empty allow-list. -/
theorem c1_allowlist_containment_witness :
    (∃ d ∈ ["/allowed"], d ≠ "" ∧
      (normalizeFull exampleEnv "/allowed/file.txt" = normalizeFull exampleEnv d ∨
        strStartsWith (normalizeFull exampleEnv "/allowed/file.txt")
          (withTrailingSep (normalizeFull exampleEnv d)) = true)) ∧
    SecurityA.validatePath exampleEnv (SecurityA.initializeSecurity [])
      exampleWorld "/x" ≠ .ok "/x" :=
  ⟨(c1_allowlist_containment exampleEnv (SecurityA.initializeSecurity ["/allowed"])
      exampleWorld "/allowed/file.txt" "").1 (by decide),
   (c1_allowlist_containment exampleEnv (SecurityA.initializeSecurity [])
      exampleWorld "/x" "/x").2.2.1 rfl rfl⟩

/-- Each item of a batch contributes exactly one result or one error string. -/
theorem batchLoop_length
    (step : World → String → World × Except FileSystemErrorType String) :
    ∀ (w : World) (items : List String),
      (FileOps.batchLoop step w items).2.1.length +
        (FileOps.batchLoop step w items).2.2.length = items.length := by
  intro w items
  induction items generalizing w with
  | nil => rfl
  | cons x xs ih =>
    unfold FileOps.batchLoop
    cases hs : step w x with
    | mk w1 r =>
      cases r with
      | ok v =>
        simp only [hs, List.length_cons]
        have := ih w1
        omega
      | error e =>
        simp only [hs, List.length_cons]
        have := ih w1
        omega

/-- C4: every `BatchOperationResult` returned by `batchMoveFiles`,
`batchCopyFiles` or `batchDeleteFiles` has `totalCount` equal to the number of
inputs, `successCount`/`errorCount` equal to the lengths of `results`/`errors`,
and `totalCount = successCount + errorCount` (one result or error per item). -/
theorem c4_batch_count_invariant (env : Env) (cfg : SecurityA.SecurityConfig)
    (ch : ElicitChannel) (w w' : World) (sources : List String)
    (destination : String) (overwrite createDirs force : Bool)
    (r : FileOps.BatchOperationResult) :
    (FileOps.batchMoveFiles env cfg w sources destination overwrite createDirs =
        (w', .ok r) →
      r.totalCount = sources.length ∧ r.successCount = r.results.length ∧
        r.errorCount = r.errors.length ∧ r.totalCount = r.successCount + r.errorCount) ∧
    (FileOps.batchCopyFiles env cfg w sources destination overwrite createDirs =
        (w', .ok r) →
      r.totalCount = sources.length ∧ r.successCount = r.results.length ∧
        r.errorCount = r.errors.length ∧ r.totalCount = r.successCount + r.errorCount) ∧
    (FileOps.batchDeleteFiles env cfg ch w sources force = (w', .ok r) →
      r.totalCount = sources.length ∧ r.successCount = r.results.length ∧
        r.errorCount = r.errors.length ∧ r.totalCount = r.successCount + r.errorCount) := by
  have hmk : ∀ (out : World × List String × List String),
      FileOps.mkBatchResult sources.length out = (w', .ok r) →
      (∀ w0 step, out = FileOps.batchLoop step w0 sources →
        r.totalCount = sources.length ∧ r.successCount = r.results.length ∧
          r.errorCount = r.errors.length ∧
          r.totalCount = r.successCount + r.errorCount) := by
    intro out h w0 step hout
    unfold FileOps.mkBatchResult at h
    have hr := (Prod.mk.injEq _ _ _ _).mp h
    have hr2 := Except.ok.inj hr.2
    subst hr2
    refine ⟨rfl, rfl, rfl, ?_⟩
    show sources.length = out.2.1.length + out.2.2.length
    rw [hout]
    exact (batchLoop_length step w0 sources).symm
  refine ⟨?_, ?_, ?_⟩
  · intro h
    unfold FileOps.batchMoveFiles at h
    split at h
    · exact absurd ((Prod.mk.injEq _ _ _ _).mp h).2 (by simp)
    · split at h
      · split at h
        · exact absurd ((Prod.mk.injEq _ _ _ _).mp h).2 (by simp)
        · exact hmk _ h _ _ rfl
      · split at h
        · split at h
          · exact hmk _ h _ _ rfl
          · exact absurd ((Prod.mk.injEq _ _ _ _).mp h).2 (by simp)
        · exact absurd ((Prod.mk.injEq _ _ _ _).mp h).2 (by simp)
  · intro h
    unfold FileOps.batchCopyFiles at h
    split at h
    · exact absurd ((Prod.mk.injEq _ _ _ _).mp h).2 (by simp)
    · split at h
      · exact absurd ((Prod.mk.injEq _ _ _ _).mp h).2 (by simp)
      · split at h
        · split at h
          · exact absurd ((Prod.mk.injEq _ _ _ _).mp h).2 (by simp)
          · exact hmk _ h _ _ rfl
        · exact absurd ((Prod.mk.injEq _ _ _ _).mp h).2 (by simp)
  · intro h
    unfold FileOps.batchDeleteFiles at h
    split at h
    · exact absurd ((Prod.mk.injEq _ _ _ _).mp h).2 (by simp)
    · split at h
      all_goals split at h
      all_goals
        first
          | exact hmk _ h _ _ rfl
          | exact absurd ((Prod.mk.injEq _ _ _ _).mp h).2 (by simp)

/-- C4 witness: a two-item batch move with one success and one failure, and the
empty batch delete. -/
theorem c4_batch_count_invariant_witness :
    (FileOps.batchMoveFiles exampleEnv (SecurityA.initializeSecurity ["/d"])
        ⟨[("/d", .dir 493), ("/d/a", .file "hello" 420)]⟩
        ["/d/a", "/d/nope"] "/d/sub" false true).2 =
      .ok ⟨["/d/a -> /d/sub/a"], ["file not found"], 2, 1, 1⟩ ∧
    (2 = 2 ∧ 1 = 1 ∧ 1 = 1 ∧ 2 = 1 + 1) ∧
    (FileOps.batchDeleteFiles exampleEnv (SecurityA.initializeSecurity ["/d"])
        ElicitChannel.unavailable ⟨[("/d", .dir 493)]⟩ [] false).2 =
      .ok ⟨[], [], 0, 0, 0⟩ ∧
    (0 = 0 ∧ 0 = 0 ∧ 0 = 0 ∧ 0 = 0 + 0) := by
  refine ⟨rfl, ?_, rfl, ?_⟩
  · have h := (c4_batch_count_invariant exampleEnv
      (SecurityA.initializeSecurity ["/d"]) ElicitChannel.unavailable
      ⟨[("/d", .dir 493), ("/d/a", .file "hello" 420)]⟩
      ⟨[("/d/sub/a", .file "hello" 420), ("/d/sub", .dir 493), ("/d", .dir 493)]⟩
      ["/d/a", "/d/nope"] "/d/sub" false true false
      ⟨["/d/a -> /d/sub/a"], ["file not found"], 2, 1, 1⟩).1 rfl
    exact h
  · have h := (c4_batch_count_invariant exampleEnv
      (SecurityA.initializeSecurity ["/d"]) ElicitChannel.unavailable
      ⟨[("/d", .dir 493)]⟩ ⟨[("/d", .dir 493)]⟩ [] "/d" false true false
      ⟨[], [], 0, 0, 0⟩).2.2 rfl
    exact h

/-- C5: an unforced batch delete containing at least one path that validates
and is classified sensitive fails as a whole with `PERMISSION_DENIED`, leaving
the filesystem untouched; the single-file delete blocks (only) the one
sensitive file the same way. -/
theorem c5_batch_delete_sensitive_prescan (env : Env)
    (cfg : SecurityA.SecurityConfig) (ch : ElicitChannel) (w : World)
    (paths : List String) (p v filePath vp : String) (n : FsNode) :
    (p ∈ paths → SecurityA.validatePath env cfg w p = .ok v →
      FileOps.isSensitiveFile v = true →
      FileOps.batchDeleteFiles env cfg ch w paths false =
        (w, .error FileSystemErrorType.PERMISSION_DENIED)) ∧
    (SecurityA.validatePath env cfg w filePath = .ok vp →
      w.statF vp = some n → n.isDirectory = false →
      FileOps.isSensitiveFile vp = true →
      FileOps.deleteFile env cfg ch w filePath false =
        (w, .error FileSystemErrorType.PERMISSION_DENIED)) := by
  constructor
  · intro hp hv hs
    have hfilter : (paths.filter fun path =>
        match SecurityA.validatePath env cfg w path with
        | .ok validatedPath => FileOps.isSensitiveFile validatedPath
        | .error _ => false).length > 0 := by
      apply List.length_pos.mpr
      intro hnil
      have hmem : p ∈ paths.filter fun path =>
          match SecurityA.validatePath env cfg w path with
          | .ok validatedPath => FileOps.isSensitiveFile validatedPath
          | .error _ => false :=
        List.mem_filter.mpr ⟨hp, by rw [hv]; exact hs⟩
      rw [hnil] at hmem
      exact absurd hmem (List.not_mem_nil p)
    have hred : FileOps.batchDeleteFiles env cfg ch w paths false =
        (if (paths.filter fun path =>
              match SecurityA.validatePath env cfg w path with
              | .ok validatedPath => FileOps.isSensitiveFile validatedPath
              | .error _ => false).length > 0 then
          (w, Except.error FileSystemErrorType.PERMISSION_DENIED)
        else
          FileOps.mkBatchResult paths.length
            (FileOps.batchLoop (FileOps.batchDeleteItem env cfg false) w paths)) := rfl
    rw [hred, if_pos hfilter]
  · intro hv hst hdir hs
    have hacc : w.access vp = true := by
      unfold World.access
      rw [hst]
      rfl
    unfold FileOps.deleteFile
    simp [hv, hacc, hst, hdir, hs]

/-- C5 witness: a batch of one sensitive (`.json`) and one plain file is
rejected whole; the single delete of the sensitive file is rejected. -/
theorem c5_batch_delete_sensitive_prescan_witness :
    FileOps.batchDeleteFiles exampleEnv (SecurityA.initializeSecurity ["/d"])
      ElicitChannel.unavailable
      ⟨[("/d", .dir 493), ("/d/a.json", .file "x" 420), ("/d/b", .file "y" 420)]⟩
      ["/d/a.json", "/d/b"] false =
      (⟨[("/d", .dir 493), ("/d/a.json", .file "x" 420), ("/d/b", .file "y" 420)]⟩,
        .error FileSystemErrorType.PERMISSION_DENIED) ∧
    FileOps.deleteFile exampleEnv (SecurityA.initializeSecurity ["/d"])
      ElicitChannel.unavailable
      ⟨[("/d", .dir 493), ("/d/a.json", .file "x" 420), ("/d/b", .file "y" 420)]⟩
      "/d/a.json" false =
      (⟨[("/d", .dir 493), ("/d/a.json", .file "x" 420), ("/d/b", .file "y" 420)]⟩,
        .error FileSystemErrorType.PERMISSION_DENIED) := by
  have h := c5_batch_delete_sensitive_prescan exampleEnv
    (SecurityA.initializeSecurity ["/d"]) ElicitChannel.unavailable
    ⟨[("/d", .dir 493), ("/d/a.json", .file "x" 420), ("/d/b", .file "y" 420)]⟩
    ["/d/a.json", "/d/b"] "/d/a.json" "/d/a.json" "/d/a.json" "/d/a.json"
    (.file "x" 420)
  exact ⟨h.1 (by simp) rfl (by decide), h.2 rfl rfl rfl (by decide)⟩

/-- C8: when the (validated) source of `createHardLink` exists and is a
directory, the call fails with `INVALID_OPERATION`, for every value of the
`overwrite` and `createDirs` flags and every file mode, and the filesystem is
unchanged. -/
theorem c8_hardlink_directory_rejected (env : Env)
    (cfg : SecurityA.SecurityConfig) (w : World)
    (source destination vs vd : String) (n : FsNode)
    (overwrite createDirs : Bool)
    (hs : SecurityA.validatePath env cfg w source = .ok vs)
    (hd : SecurityA.validatePath env cfg w destination = .ok vd)
    (hst : w.statF vs = some n) (hdir : n.isDirectory = true) :
    Utils.createHardLink env cfg w source destination overwrite createDirs =
      (w, .error FileSystemErrorType.INVALID_OPERATION) := by
  have hacc : w.access vs = true := by
    unfold World.access
    rw [hst]
    rfl
  unfold Utils.createHardLink
  simp [hs, hd, hacc, hst, hdir]

/-- C8 witness: hard-linking the directory `/d/sub` inside the allow-list. -/
theorem c8_hardlink_directory_rejected_witness :
    Utils.createHardLink exampleEnv (SecurityA.initializeSecurity ["/d"])
      ⟨[("/d", .dir 493), ("/d/sub", .dir 493)]⟩ "/d/sub" "/d/link" true false =
      (⟨[("/d", .dir 493), ("/d/sub", .dir 493)]⟩,
        .error FileSystemErrorType.INVALID_OPERATION) :=
  c8_hardlink_directory_rejected exampleEnv (SecurityA.initializeSecurity ["/d"])
    ⟨[("/d", .dir 493), ("/d/sub", .dir 493)]⟩ "/d/sub" "/d/link"
    "/d/sub" "/d/link" (.dir 493) true false rfl rfl rfl rfl

/-- C10: `createDirectory` on an authorized path that already exists succeeds
without modifying the filesystem and reports the directory as already existing
when the path is a directory, and fails with `FILE_ALREADY_EXISTS` (again
without modification) when the existing path is not a directory. -/
theorem c10_create_directory_existing (env : Env)
    (cfg : SecurityA.SecurityConfig) (w : World) (dirPath vp : String)
    (recursive : Bool) (n : FsNode)
    (hv : SecurityA.validatePath env cfg w dirPath = .ok vp)
    (hst : w.statF vp = some n) :
    (n.isDirectory = true →
      Utils.createDirectory env cfg w dirPath recursive =
        (w, .ok ("目录已存在：" ++ vp))) ∧
    (n.isDirectory = false →
      Utils.createDirectory env cfg w dirPath recursive =
        (w, .error FileSystemErrorType.FILE_ALREADY_EXISTS)) := by
  constructor
  · intro hdir
    unfold Utils.createDirectory
    simp [hv, hst, hdir]
  · intro hdir
    unfold Utils.createDirectory
    simp [hv, hst, hdir]

/-- C10 witness: an existing directory is reported as existing, an existing
file is rejected, both without filesystem change. -/
theorem c10_create_directory_existing_witness :
    Utils.createDirectory exampleEnv (SecurityA.initializeSecurity ["/d"])
      ⟨[("/d", .dir 493), ("/d/f", .file "x" 420)]⟩ "/d" true =
      (⟨[("/d", .dir 493), ("/d/f", .file "x" 420)]⟩, .ok "目录已存在：/d") ∧
    Utils.createDirectory exampleEnv (SecurityA.initializeSecurity ["/d"])
      ⟨[("/d", .dir 493), ("/d/f", .file "x" 420)]⟩ "/d/f" true =
      (⟨[("/d", .dir 493), ("/d/f", .file "x" 420)]⟩,
        .error FileSystemErrorType.FILE_ALREADY_EXISTS) :=
  ⟨((c10_create_directory_existing exampleEnv (SecurityA.initializeSecurity ["/d"])
      ⟨[("/d", .dir 493), ("/d/f", .file "x" 420)]⟩ "/d" "/d" true
      (.dir 493) rfl rfl).1 rfl),
   ((c10_create_directory_existing exampleEnv (SecurityA.initializeSecurity ["/d"])
      ⟨[("/d", .dir 493), ("/d/f", .file "x" 420)]⟩ "/d/f" "/d/f" true
      (.file "x" 420) rfl rfl).2 rfl)⟩

/-- The mode format demanded by the specification, following its words: a
string of exactly three octal digits.  (Stated for comparison with the
implementation's `parseInt`-based check.) -/
def specThreeDigitOctalMode (mode : String) : Bool :=
  decide (mode.length = 3) &&
    mode.toList.all (fun c => decide ('0' ≤ c) && decide (c ≤ '7'))

/-- C7 counterexample: the one-digit mode `"7"` is not a 3-digit octal string,
yet `changeFilePermissions` accepts it and performs the chmod. -/
theorem c7_counterexample_short_mode_accepted :
    specThreeDigitOctalMode "7" = false ∧
    Utils.changeFilePermissions exampleEnv (SecurityA.initializeSecurity ["/d"])
      ⟨[("/d", .dir 493), ("/d/f", .file "x" 420)]⟩ "/d/f" "7" =
      (⟨[("/d/f", .file "x" 7), ("/d", .dir 493)]⟩, .ok "权限修改成功：/d/f 7") :=
  ⟨rfl, rfl⟩

/-- C7 (amended): for an existing validated path, `changeFilePermissions`
fails with `VALIDATION_ERROR` exactly when `parseInt(mode, 8)` is `NaN` or its
value lies outside `[0, 0o777]`, and otherwise performs the chmod — so any
string whose longest leading octal-digit prefix parses into range is accepted,
not only 3-digit octal strings. -/
theorem c7_amended_mode_validation (env : Env) (cfg : SecurityA.SecurityConfig)
    (w : World) (filePath vp mode : String)
    (hv : SecurityA.validatePath env cfg w filePath = .ok vp)
    (hacc : w.access vp = true) :
    ((jsParseIntOct mode = none ∨
        ∃ v : Int, jsParseIntOct mode = some v ∧ (v < 0 ∨ v > 511)) →
      Utils.changeFilePermissions env cfg w filePath mode =
        (w, .error FileSystemErrorType.VALIDATION_ERROR)) ∧
    (∀ v : Int, jsParseIntOct mode = some v → 0 ≤ v → v ≤ 511 →
      ∃ w1, Utils.changeFilePermissions env cfg w filePath mode =
          (w1, .ok ("权限修改成功：" ++ vp ++ " " ++ mode)) ∧
        w.chmodE vp v.toNat = some w1) := by
  constructor
  · intro h
    unfold Utils.changeFilePermissions
    rcases h with hn | ⟨v, hsome, hb⟩
    · simp [hv, hacc, hn]
    · simp only [hv, hacc]
      simp only [hsome]
      simp [if_pos hb]
  · intro v hsome h0 h511
    have hb : ¬(v < 0 ∨ v > 511) := by omega
    have hch : ∃ w1, w.chmodE vp v.toNat = some w1 := by
      unfold World.access World.statF at hacc
      unfold World.chmodE
      cases hl : w.lookup vp with
      | none => simp [hl] at hacc
      | some nd =>
        cases nd with
        | file c m => exact ⟨w.insertE vp (.file c v.toNat), by simp [hl]⟩
        | dir m => exact ⟨w.insertE vp (.dir v.toNat), by simp [hl]⟩
        | symlink t =>
          cases hlt : w.lookup t with
          | none => simp [hl, hlt] at hacc
          | some nt =>
            cases nt with
            | file c m => exact ⟨w.insertE t (.file c v.toNat), by simp [hl, hlt]⟩
            | dir m => exact ⟨w.insertE t (.dir v.toNat), by simp [hl, hlt]⟩
            | symlink t2 => simp [hl, hlt] at hacc
    obtain ⟨w1, hw1⟩ := hch
    refine ⟨w1, ?_, hw1⟩
    unfold Utils.changeFilePermissions
    simp only [hv, hacc]
    simp only [hsome]
    simp [if_neg hb, hw1]

/-- C7 (amended) witness: `"999"` parses to `NaN` and is rejected; `"600"`
parses in range and the chmod is performed. -/
theorem c7_amended_mode_validation_witness :
    Utils.changeFilePermissions exampleEnv (SecurityA.initializeSecurity ["/d"])
      ⟨[("/d", .dir 493), ("/d/f", .file "x" 420)]⟩ "/d/f" "999" =
      (⟨[("/d", .dir 493), ("/d/f", .file "x" 420)]⟩,
        .error FileSystemErrorType.VALIDATION_ERROR) ∧
    (∃ w1, Utils.changeFilePermissions exampleEnv
        (SecurityA.initializeSecurity ["/d"])
        ⟨[("/d", .dir 493), ("/d/f", .file "x" 420)]⟩ "/d/f" "600" =
        (w1, .ok "权限修改成功：/d/f 600") ∧
      (⟨[("/d", .dir 493), ("/d/f", .file "x" 420)]⟩ : World).chmodE "/d/f"
        (Int.toNat 384) = some w1) :=
  ⟨(c7_amended_mode_validation exampleEnv (SecurityA.initializeSecurity ["/d"])
      ⟨[("/d", .dir 493), ("/d/f", .file "x" 420)]⟩ "/d/f" "/d/f" "999"
      rfl rfl).1 (Or.inl rfl),
   (c7_amended_mode_validation exampleEnv (SecurityA.initializeSecurity ["/d"])
      ⟨[("/d", .dir 493), ("/d/f", .file "x" 420)]⟩ "/d/f" "/d/f" "600"
      rfl rfl).2 384 rfl (by decide) (by decide)⟩

/-- The configuration of the symlink-escape scenario: defaults with the
allow-list `["/tmp/work"]`. -/
def symlinkScenarioConfig : SecurityB.SecurityConfig :=
  { SecurityB.DEFAULT_SECURITY_CONFIG with allowedDirectories := ["/tmp/work"] }

/-- The filesystem of the symlink-escape scenario: two links inside
`/tmp/work`, both pointing at `/etc/passwd`, one carrying a restricted
(`.exe`) extension. -/
def symlinkScenarioWorld : World :=
  ⟨[("/tmp", .dir 493), ("/tmp/work", .dir 493), ("/etc", .dir 493),
    ("/etc/passwd", .file "root" 420),
    ("/tmp/work/link", .symlink "/etc/passwd"),
    ("/tmp/work/link.exe", .symlink "/etc/passwd")]⟩

/-- C2 counterexample: `/tmp/work/link.exe` is inside the allow-list, is a
symbolic link, and its resolved target `/etc/passwd` escapes every allowed
directory — but `validatePath` fails with `VALIDATION_ERROR` (the restricted
extension check precedes the symlink check), not `SYMLINK_TARGET_INVALID`. -/
theorem c2_counterexample_restricted_extension_symlink :
    SecurityB.validatePath exampleEnv symlinkScenarioConfig symlinkScenarioWorld
      "/tmp/work/link.exe" = .error FileSystemErrorType.VALIDATION_ERROR ∧
    isPathWithinAllowedDirectories exampleEnv "/tmp/work/link.exe"
      symlinkScenarioConfig.allowedDirectories = true ∧
    symlinkScenarioWorld.lstatE "/tmp/work/link.exe" =
      some (.symlink "/etc/passwd") ∧
    symlinkScenarioWorld.realpathE "/tmp/work/link.exe" = some "/etc/passwd" ∧
    isPathWithinAllowedDirectories exampleEnv "/etc/passwd"
      symlinkScenarioConfig.allowedDirectories = false ∧
    FileSystemErrorType.VALIDATION_ERROR ≠ FileSystemErrorType.SYMLINK_TARGET_INVALID :=
  ⟨rfl, rfl, rfl, rfl, rfl, by decide⟩

/-- C2 (amended): a path inside the allow-list that is a symbolic link whose
resolved target escapes every allowed directory makes `validatePath` fail with
`SYMLINK_TARGET_INVALID` — provided the path has no illegal characters and its
extension is not in the restricted list (those checks run first and fail with
`VALIDATION_ERROR` instead). -/
theorem c2_amended_symlink_escape_rejected (env : Env)
    (cfg : SecurityB.SecurityConfig) (w : World) (p t rp : String)
    (hsym : cfg.enableSymlinkValidation = true)
    (hp : p ≠ "")
    (hil : containsIllegalCharacters (normalizeFull env p) = false)
    (hwithin : isPathWithinAllowedDirectories env (normalizeFull env p)
      cfg.allowedDirectories = true)
    (hext : SecurityB.isRestrictedExtension cfg (normalizeFull env p) = false)
    (hlstat : w.lstatE (normalizeFull env p) = some (.symlink t))
    (hreal : w.realpathE (normalizeFull env p) = some rp)
    (hout : isPathWithinAllowedDirectories env (normalizePath rp)
      cfg.allowedDirectories = false) :
    SecurityB.validatePath env cfg w p =
      .error FileSystemErrorType.SYMLINK_TARGET_INVALID := by
  unfold SecurityB.validatePath SecurityB.validateSymlinkSecurity
  simp [hp, hil, hwithin, hext, hlstat, hsym, hreal, hout]

/-- C2 (amended) witness: the extensionless link `/tmp/work/link` to
`/etc/passwd` is rejected with `SYMLINK_TARGET_INVALID`. -/
theorem c2_amended_symlink_escape_rejected_witness :
    SecurityB.validatePath exampleEnv symlinkScenarioConfig symlinkScenarioWorld
      "/tmp/work/link" = .error FileSystemErrorType.SYMLINK_TARGET_INVALID :=
  c2_amended_symlink_escape_rejected exampleEnv symlinkScenarioConfig
    symlinkScenarioWorld "/tmp/work/link" "/etc/passwd" "/etc/passwd"
    rfl (by decide) rfl rfl rfl rfl rfl rfl

/-- `find?` is unaffected by filtering out a key it is not looking for. -/
theorem find?_filter_ne {r q : String} (hne : r ≠ q)
    (l : List (String × FsNode)) :
    List.find? (fun e => decide (e.1 = r))
        (l.filter (fun e => decide (¬ e.1 = q))) =
      List.find? (fun e => decide (e.1 = r)) l := by
  induction l with
  | nil => rfl
  | cons e es ih =>
    rw [List.filter_cons]
    by_cases he : e.1 = q
    · rw [if_neg (by simp [he])]
      have her : ¬ e.1 = r := fun hh => hne (hh.symm.trans he)
      have hrhs : List.find? (fun e2 => decide (e2.1 = r)) (e :: es) =
          List.find? (fun e2 => decide (e2.1 = r)) es := by
        rw [List.find?_cons, decide_eq_false her]
      rw [hrhs]
      exact ih
    · rw [if_pos (by simp [he])]
      rw [List.find?_cons, List.find?_cons]
      cases hr : decide (e.1 = r) with
      | false => simp only [hr]; exact ih
      | true => simp only [hr]

/-- Lookup after insertion. -/
theorem lookup_insertE (w : World) (q : String) (n : FsNode) (r : String) :
    (w.insertE q n).lookup r = if r = q then some n else w.lookup r := by
  unfold World.insertE World.lookup
  by_cases hrq : r = q
  · subst hrq
    simp [List.find?_cons]
  · have hqr : ¬ q = r := fun hh => hrq hh.symm
    rw [if_neg hrq]
    rw [List.find?_cons]
    rw [show (decide ((q, n).1 = r)) = false from decide_eq_false hqr]
    rw [find?_filter_ne hrq]

/-- C6: after a successful `copyFile` with `overwrite = false`, repeating the
identical call fails with `FILE_ALREADY_EXISTS` and performs no mutation: the
world (in particular the destination's content from the first call) is
returned unchanged. -/
theorem c6_copy_overwrite_idempotence_boundary (env : Env)
    (cfg : SecurityA.SecurityConfig) (w w' : World)
    (source destination m : String) (createDirs : Bool)
    (h : FileOps.copyFile env cfg w source destination false createDirs =
      (w', .ok m)) :
    FileOps.copyFile env cfg w' source destination false createDirs =
      (w', .error FileSystemErrorType.FILE_ALREADY_EXISTS) := by
  unfold FileOps.copyFile at h
  cases hvs : SecurityA.validatePath env cfg w source with
  | error e => rw [hvs] at h; dsimp only at h; simp at h
  | ok vs =>
  rw [hvs] at h
  dsimp only at h
  cases hvd : SecurityA.validatePath env cfg w destination with
  | error e => rw [hvd] at h; dsimp only at h; simp at h
  | ok vd =>
  rw [hvd] at h
  dsimp only at h
  by_cases hacs : w.access vs = false
  · rw [if_pos hacs] at h; simp at h
  rw [if_neg hacs] at h
  by_cases hacd : w.access vd = true
  · rw [if_pos (by simp [hacd])] at h; simp at h
  rw [if_neg (by simp at hacd ⊢; simp [hacd])] at h
  cases hmk : (if createDirs then w.mkdirAt (posixDirname vd) else some w) with
  | none => rw [hmk] at h; dsimp only at h; simp at h
  | some w1 =>
  rw [hmk] at h
  dsimp only at h
  cases hcp : w1.copyF vs vd with
  | none => rw [hcp] at h; dsimp only at h; simp at h
  | some w2 =>
  rw [hcp] at h
  dsimp only at h
  have hw' : w2 = w' := congrArg Prod.fst h
  subst hw'
  unfold World.copyF at hcp
  cases hsf : w1.statF vs with
  | none => rw [hsf] at hcp; simp at hcp
  | some nf =>
  rw [hsf] at hcp
  cases nf with
  | dir mo => simp at hcp
  | symlink t0 => simp at hcp
  | file c mo =>
  dsimp only at hcp
  have hw2 : w1.insertE vd (.file c mo) = w2 := Option.some.inj hcp
  have hF2 : w2.access vd = true := by
    rw [← hw2]
    unfold World.access World.statF
    rw [lookup_insertE]
    simp
  have hF1 : w2.access vs = true := by
    rw [← hw2]
    unfold World.access World.statF
    unfold World.statF at hsf
    cases hl1 : w1.lookup vs with
    | none => rw [hl1] at hsf; simp at hsf
    | some nd =>
    rw [hl1] at hsf
    cases nd with
    | file c1 m1 =>
      rw [lookup_insertE]
      by_cases h1 : vs = vd
      · simp [h1]
      · simp [h1, hl1]
    | dir m1 =>
      rw [lookup_insertE]
      by_cases h1 : vs = vd
      · simp [h1]
      · simp [h1, hl1]
    | symlink t =>
      dsimp only at hsf
      cases hlt : w1.lookup t with
      | none => rw [hlt] at hsf; simp at hsf
      | some nt =>
      rw [hlt] at hsf
      cases nt with
      | symlink t2 => simp at hsf
      | file c1 m1 =>
        rw [lookup_insertE]
        by_cases h1 : vs = vd
        · simp [h1]
        · rw [if_neg h1, hl1]
          dsimp only
          rw [lookup_insertE]
          by_cases h2 : t = vd
          · simp [h2]
          · simp [h2, hlt]
      | dir m1 =>
        rw [lookup_insertE]
        by_cases h1 : vs = vd
        · simp [h1]
        · rw [if_neg h1, hl1]
          dsimp only
          rw [lookup_insertE]
          by_cases h2 : t = vd
          · simp [h2]
          · simp [h2, hlt]
  have hs1 := validatePathA_stable hvs hF1
  have hs2 := validatePathA_stable hvd hF2
  unfold FileOps.copyFile
  rw [hs1]
  dsimp only
  rw [hs2]
  dsimp only
  rw [if_neg (by simp [hF1])]
  rw [if_pos (by simp [hF2])]

/-- C6 witness: copying `/d/a` to `/d/b` succeeds once, then the identical
call fails with `FILE_ALREADY_EXISTS` leaving the world unchanged. -/
theorem c6_copy_overwrite_idempotence_boundary_witness :
    FileOps.copyFile exampleEnv (SecurityA.initializeSecurity ["/d"])
      ⟨[("/d", .dir 493), ("/d/a", .file "hello" 420)]⟩ "/d/a" "/d/b" false true =
      (⟨[("/d/b", .file "hello" 420), ("/d", .dir 493), ("/d/a", .file "hello" 420)]⟩,
        .ok "文件复制成功：/d/a -> /d/b") ∧
    FileOps.copyFile exampleEnv (SecurityA.initializeSecurity ["/d"])
      ⟨[("/d/b", .file "hello" 420), ("/d", .dir 493), ("/d/a", .file "hello" 420)]⟩
      "/d/a" "/d/b" false true =
      (⟨[("/d/b", .file "hello" 420), ("/d", .dir 493), ("/d/a", .file "hello" 420)]⟩,
        .error FileSystemErrorType.FILE_ALREADY_EXISTS) :=
  ⟨rfl,
   c6_copy_overwrite_idempotence_boundary exampleEnv
     (SecurityA.initializeSecurity ["/d"])
     ⟨[("/d", .dir 493), ("/d/a", .file "hello" 420)]⟩
     ⟨[("/d/b", .file "hello" 420), ("/d", .dir 493), ("/d/a", .file "hello" 420)]⟩
     "/d/a" "/d/b" "文件复制成功：/d/a -> /d/b" true rfl⟩
